import Mathlib

/-
Shallow embedding of the `dishook` Discord-webhook builder library
(src/utils/{webhook,embed,components,poll,allowed_mentions,utilities}.py).

Python values flowing through the builders are modelled by `PyVal`;
Python dicts are insertion-ordered association lists with distinct keys.
Stateful methods are modelled by explicit state passing: a method that can
raise and mutates only after all checks returns `Option Err × State`
(the state component is the object's state when control returns or the
exception propagates); constructors that can raise return `Except Err State`
(a raising `__init__` yields no object).  The wall clock read by
`datetime.utcnow()` is an injected parameter.
-/

namespace Dishook

/-- A dynamically-typed Python value, as used in the builders' dicts. -/
inductive PyVal where
  | none
  | bool (b : Bool)
  | int (n : Int)
  | str (s : String)
  | list (xs : List PyVal)
  | dict (entries : List (String × PyVal))
deriving Repr

/-- A Python dict: insertion-ordered association list (keys distinct in all
dicts the library builds, so first-match lookup is exact). -/
abbrev Dict := List (String × PyVal)

/-- `d[k]` / `k in d`: first binding of `k` in `d`, if any. -/
def dictLookup (d : Dict) (k : String) : Option PyVal :=
  match d.find? (fun kv => kv.1 == k) with
  | some kv => some kv.2
  | Option.none => Option.none

/-- The keys of a dict, in insertion order. -/
def dictKeys (d : Dict) : List String := d.map Prod.fst

/-- The error kinds of the spec's §7 taxonomy; each corresponds to one of the
`ValueError` / `IndexError` raises in the source (`InvalidColor` also covers a
hex string the `int(s, 16)` call rejects, per §7). -/
inductive Err where
  | invalidColor
  | invalidTimestamp
  | invalidField
  | invalidFieldType
  | indexOutOfRange
deriving Repr, DecidableEq

/-! ### Hexadecimal strings

`pyHex` models Python's `hex()` builtin (for nonnegative arguments):
`"0x"` followed by the lowercase base-16 digits, no leading zeros.
`intBase16` models `int(s, 16)`: an optional sign, an optional `0x`/`0X`
prefix, then a nonempty run of hex digits of either case.  (Python also
tolerates surrounding whitespace and interior underscores; those inputs
are outside every claim and are not modelled.) -/

/-- The lowercase hex digit for `n < 16`. -/
def hexDigitChar (n : Nat) : Char :=
  if n < 10 then Char.ofNat (48 + n) else Char.ofNat (87 + n)

/-- The base-16 digits of `n`, most significant first (nonempty; `[0]` for 0). -/
def natToHexDigits (n : Nat) : List Char :=
  if _h : n < 16 then [hexDigitChar n]
  else natToHexDigits (n / 16) ++ [hexDigitChar (n % 16)]
decreasing_by exact Nat.div_lt_self (by omega) (by omega)

/-- Python's `hex(n)` for `n ≥ 0`. -/
def pyHex (n : Nat) : String :=
  "0x" ++ String.mk (natToHexDigits n)

/-- The value of a hex digit character of either case, if it is one. -/
def hexDigitVal (c : Char) : Option Nat :=
  if 48 ≤ c.toNat ∧ c.toNat ≤ 57 then some (c.toNat - 48)
  else if 97 ≤ c.toNat ∧ c.toNat ≤ 102 then some (c.toNat - 87)
  else if 65 ≤ c.toNat ∧ c.toNat ≤ 70 then some (c.toNat - 55)
  else none

/-- Folds hex digits into an accumulator; `none` on a non-digit. -/
def parseHexDigits : List Char → Nat → Option Nat
  | [], acc => some acc
  | c :: cs, acc =>
    match hexDigitVal c with
    | some d => parseHexDigits cs (16 * acc + d)
    | Option.none => none

/-- Strips an optional `0x` / `0X` prefix. -/
def stripHexPrefix : List Char → List Char
  | '0' :: 'x' :: rest => rest
  | '0' :: 'X' :: rest => rest
  | cs => cs

/-- Models `int(s, 16)`: optional sign, optional `0x` prefix, a nonempty
digit run; `none` where Python raises `ValueError`. -/
def intBase16 (s : String) : Option Int :=
  let core : List Char → Option Nat := fun cs =>
    let ds := stripHexPrefix cs
    if ds.isEmpty then none else parseHexDigits ds 0
  match s.toList with
  | '-' :: rest => (core rest).map (fun n => -(n : Int))
  | '+' :: rest => (core rest).map (fun n => (n : Int))
  | cs => (core cs).map (fun n => (n : Int))

/-- A color argument: Python `str` or `int`. -/
inductive ColorInput where
  | str (s : String)
  | int (i : Int)
deriving Repr, DecidableEq

namespace DiscordUtilities

/-- `DiscordUtilities.convert_color_to_int` (src/utils/utilities.py):
a string is parsed base-16 (`ValueError` ↦ `invalidColor` per §7), then the
value must lie in `[0, 16777216)` or `ValueError` ↦ `invalidColor`. -/
def convert_color_to_int (color : ColorInput) : Except Err Int :=
  match (match color with
         | .str s => intBase16 s
         | .int i => some i) with
  | Option.none => .error .invalidColor
  | some c => if 0 ≤ c ∧ c < 16777216 then .ok c else .error .invalidColor

end DiscordUtilities

/-! ### The `datetime` values used by `set_timestamp`

`DT` models a `datetime.datetime`: a civil date-time with microseconds and an
optional fixed UTC offset in minutes (`none` = naive, as `utcnow()` /
`utcfromtimestamp()` produce).  `DT.isoformat` models `datetime.isoformat()`
(seconds always printed, microseconds only when nonzero, offset as `±HH:MM`).
`utcfromtimestamp` models `datetime.utcfromtimestamp` by the standard
epoch-to-civil (Gregorian) conversion.  `fromisoformat` models
`datetime.fromisoformat`, which accepts exactly the strings `isoformat`
emits: `YYYY-MM-DD[*HH[:MM[:SS[.fff[fff]]]]][±HH:MM]` with any single
character as the date-time separator, all components range-checked
(offsets given with seconds are outside the claims and not modelled). -/

/-- A `datetime.datetime` value. -/
structure DT where
  year : Int
  month : Nat
  day : Nat
  hour : Nat
  minute : Nat
  second : Nat
  microsecond : Nat := 0
  offsetMinutes : Option Int := Option.none
deriving Repr, DecidableEq

/-- `n` rendered in decimal, left-padded with zeros to width `w`. -/
def padNum (w : Nat) (n : Nat) : String :=
  let s := toString n
  String.mk (List.replicate (w - s.length) '0') ++ s

/-- `datetime.isoformat()` (years 1–9999, as Python admits). -/
def DT.isoformat (d : DT) : String :=
  padNum 4 d.year.toNat ++ "-" ++ padNum 2 d.month ++ "-" ++ padNum 2 d.day ++ "T" ++
  padNum 2 d.hour ++ ":" ++ padNum 2 d.minute ++ ":" ++ padNum 2 d.second ++
  (if d.microsecond == 0 then "" else "." ++ padNum 6 d.microsecond) ++
  (match d.offsetMinutes with
   | Option.none => ""
   | some off =>
     (if off < 0 then "-" else "+") ++
       padNum 2 (off.natAbs / 60) ++ ":" ++ padNum 2 (off.natAbs % 60))

/-- Gregorian leap-year test. -/
def isLeap (y : Int) : Bool :=
  y % 4 == 0 && (y % 100 != 0 || y % 400 == 0)

/-- Days in month `m` of year `y` (0 for an invalid month number). -/
def daysInMonth (y : Int) (m : Nat) : Nat :=
  match m with
  | 1 => 31 | 2 => if isLeap y then 29 else 28 | 3 => 31 | 4 => 30
  | 5 => 31 | 6 => 30 | 7 => 31 | 8 => 31
  | 9 => 30 | 10 => 31 | 11 => 30 | 12 => 31
  | _ => 0

/-- `datetime.utcfromtimestamp(n)` for integer `n`: `n` Unix epoch seconds
rendered as a naive UTC civil date-time (epoch-to-civil conversion). -/
def utcfromtimestamp (n : Int) : DT :=
  let days : Int := Int.fdiv n 86400
  let rem : Nat := (n - days * 86400).toNat
  let z : Int := days + 719468
  let era : Int := Int.fdiv z 146097
  let doe : Nat := (z - era * 146097).toNat
  let yoe : Nat := (doe - doe / 1460 + doe / 36524 - doe / 146096) / 365
  let doy : Nat := doe - (365 * yoe + yoe / 4 - yoe / 100)
  let mp : Nat := (5 * doy + 2) / 153
  let d : Nat := doy - (153 * mp + 2) / 5 + 1
  let m : Nat := if mp < 10 then mp + 3 else mp - 9
  { year := (yoe : Int) + era * 400 + (if m ≤ 2 then 1 else 0),
    month := m, day := d,
    hour := rem / 3600, minute := rem % 3600 / 60, second := rem % 60 }

/-- The value of a decimal digit character, if it is one. -/
def digitVal (c : Char) : Option Nat :=
  if 48 ≤ c.toNat ∧ c.toNat ≤ 57 then some (c.toNat - 48) else none

/-- Parses exactly `k` decimal digits into `acc`, returning the rest. -/
def parseDigitsExact : Nat → Nat → List Char → Option (Nat × List Char)
  | 0, acc, cs => some (acc, cs)
  | _ + 1, _, [] => none
  | k + 1, acc, c :: cs =>
    match digitVal c with
    | some d => parseDigitsExact k (10 * acc + d) cs
    | Option.none => none

/-- Consumes the expected character or fails. -/
def expectChar (c : Char) : List Char → Option (List Char)
  | c' :: cs => if c' == c then some cs else none
  | [] => none

/-- A fractional-seconds suffix: exactly 3 or 6 digits, as microseconds. -/
def parseFraction (cs : List Char) : Option (Nat × List Char) := do
  let (a, cs1) ← parseDigitsExact 3 0 cs
  match parseDigitsExact 3 0 cs1 with
  | some (b, cs2) => some (a * 1000 + b, cs2)
  | Option.none => some (a * 1000, cs1)

/-- A `±HH:MM` UTC offset ending the string, or the end of the string. -/
def parseOffsetEnd : List Char → Option (Option Int)
  | [] => some Option.none
  | sign :: cs =>
    if sign = '+' ∨ sign = '-' then do
      let (oh, cs) ← parseDigitsExact 2 0 cs
      let cs ← expectChar ':' cs
      let (om, cs) ← parseDigitsExact 2 0 cs
      if cs.isEmpty ∧ oh ≤ 23 ∧ om ≤ 59 then
        let total : Int := oh * 60 + om
        some (some (if sign = '-' then -total else total))
      else none
    else none

/-- Range-checks the parsed time-of-day components. -/
def mkTimeParts (h mi se us : Nat) (off : Option Int) :
    Option (Nat × Nat × Nat × Nat × Option Int) :=
  if h ≤ 23 ∧ mi ≤ 59 ∧ se ≤ 59 then some (h, mi, se, us, off) else none

/-- The time-of-day part `HH[:MM[:SS[.fff[fff]]]][±HH:MM]` of an
ISO-8601 string (everything after the date-time separator). -/
def parseTimeTail (cs : List Char) : Option (Nat × Nat × Nat × Nat × Option Int) := do
  let (h, cs) ← parseDigitsExact 2 0 cs
  match cs with
  | ':' :: cs => do
    let (mi, cs) ← parseDigitsExact 2 0 cs
    match cs with
    | ':' :: cs => do
      let (se, cs) ← parseDigitsExact 2 0 cs
      match cs with
      | '.' :: cs => do
        let (us, cs) ← parseFraction cs
        let off ← parseOffsetEnd cs
        mkTimeParts h mi se us off
      | _ => do
        let off ← parseOffsetEnd cs
        mkTimeParts h mi se 0 off
    | _ => do
      let off ← parseOffsetEnd cs
      mkTimeParts h mi 0 0 off
  | _ => do
    let off ← parseOffsetEnd cs
    mkTimeParts h 0 0 0 off

/-- `datetime.fromisoformat(s)`: `none` where Python raises `ValueError`. -/
def fromisoformat (s : String) : Option DT := do
  let (y, cs) ← parseDigitsExact 4 0 s.toList
  let cs ← expectChar '-' cs
  let (mo, cs) ← parseDigitsExact 2 0 cs
  let cs ← expectChar '-' cs
  let (d, cs) ← parseDigitsExact 2 0 cs
  if 1 ≤ y ∧ 1 ≤ mo ∧ mo ≤ 12 ∧ 1 ≤ d ∧ d ≤ daysInMonth (Int.ofNat y) mo then
    match cs with
    | [] => some { year := (y : Int), month := mo, day := d,
                   hour := 0, minute := 0, second := 0 }
    | _ :: cs' => do
      let (h, mi, se, us, off) ← parseTimeTail cs'
      some { year := (y : Int), month := mo, day := d,
             hour := h, minute := mi, second := se,
             microsecond := us, offsetMinutes := off }
  else none

/-! ### `DiscordEmbed` (src/utils/embed.py)

Methods that can raise and assign only after all checks are modelled as
`state → Option Err × state` (the returned state is the object's state at
the return or at the raise); `__init__` is `Except Err state` (a raising
constructor yields no object).  `datetime.utcnow()` is the injected
`clock` parameter. -/

/-- A `timestamp` argument: `float | int | str | datetime` (non-integer
floats are outside the claims; numerics are epoch seconds). -/
inductive TsInput where
  | num (n : Int)
  | str (s : String)
  | dt (d : DT)
deriving Repr, DecidableEq

/-- The attribute state of a `DiscordEmbed` object. -/
structure EmbedState where
  title : Option String := Option.none
  description : Option String := Option.none
  url : Option String := Option.none
  footer : Option PyVal := Option.none
  image : Option PyVal := Option.none
  thumbnail : Option PyVal := Option.none
  video : Option PyVal := Option.none
  provider : Option PyVal := Option.none
  author : Option PyVal := Option.none
  fields : List Dict := []
  color : Option Int := Option.none
  timestamp : Option String := Option.none
deriving Repr

namespace DiscordEmbed

/-- `DiscordEmbed.set_color`: `None` is a no-op; a string is parsed base-16
(a `ValueError` from `int(color, 16)` ↦ `invalidColor` per §7); the value is
range-checked before the single assignment `self.color = color`, so on a
raise the state is unchanged. -/
def set_color (color : Option ColorInput) (st : EmbedState) :
    Option Err × EmbedState :=
  match color with
  | Option.none => (Option.none, st)
  | some c =>
    match (match c with | .str s => intBase16 s | .int i => some i) with
    | Option.none => (some .invalidColor, st)
    | some v =>
      if 0 ≤ v ∧ v < 16777216 then (Option.none, { st with color := some v })
      else (some .invalidColor, st)

/-- `DiscordEmbed.set_timestamp`: `None` ↦ `datetime.utcnow()` (the injected
`clock`); numeric ↦ `datetime.utcfromtimestamp`; string ↦
`datetime.fromisoformat` (`ValueError` ↦ `invalidTimestamp` per §7); a
`datetime` passes through; the result's `isoformat()` is stored. -/
def set_timestamp (ts : Option TsInput) (clock : DT) (st : EmbedState) :
    Option Err × EmbedState :=
  match ts with
  | Option.none => (Option.none, { st with timestamp := some clock.isoformat })
  | some (.num n) =>
    (Option.none, { st with timestamp := some (utcfromtimestamp n).isoformat })
  | some (.str s) =>
    match fromisoformat s with
    | some d => (Option.none, { st with timestamp := some d.isoformat })
    | Option.none => (some .invalidTimestamp, st)
  | some (.dt d) => (Option.none, { st with timestamp := some d.isoformat })

/-- `DiscordEmbed.add_field`: appends `{"name": name, "value": value,
"inline": inline}` to `self.fields`. -/
def add_field (name value : String) (inline : Bool) (st : EmbedState) :
    EmbedState :=
  { st with fields := st.fields ++
      [[("name", PyVal.str name), ("value", PyVal.str value),
        ("inline", PyVal.bool inline)]] }

/-- The dict comprehension `{k: v for k, v in embed.items() if v is not None}`. -/
def filterNone (l : List (String × Option PyVal)) : Dict :=
  l.filterMap (fun kv => kv.2.map (fun v => (kv.1, v)))

/-- `DiscordEmbed.to_dict`: the literal 12-entry dict with `None` values
dropped.  The `"fields"` value is always bound (a Python list is never
`None`). -/
def to_dict (st : EmbedState) : Dict :=
  filterNone
    [("title", st.title.map PyVal.str),
     ("description", st.description.map PyVal.str),
     ("url", st.url.map PyVal.str),
     ("timestamp", st.timestamp.map PyVal.str),
     ("color", st.color.map PyVal.int),
     ("footer", st.footer),
     ("image", st.image),
     ("thumbnail", st.thumbnail),
     ("video", st.video),
     ("provider", st.provider),
     ("author", st.author),
     ("fields", some (PyVal.list (st.fields.map PyVal.dict)))]

/-- The keyword arguments accepted by `DiscordEmbed.__init__`
(each `kwargs.get(...)` defaults to `None`; `fields` defaults to `[]`). -/
structure EmbedKwargs where
  url : Option String := Option.none
  footer : Option PyVal := Option.none
  image : Option PyVal := Option.none
  thumbnail : Option PyVal := Option.none
  video : Option PyVal := Option.none
  provider : Option PyVal := Option.none
  author : Option PyVal := Option.none
  fields : List Dict := []
  color : Option ColorInput := Option.none
  timestamp : Option TsInput := Option.none
deriving Repr

/-- `DiscordEmbed.__init__`: stores the attributes, then runs
`set_color(kwargs.get("color"))` and `set_timestamp(kwargs.get("timestamp"))`;
either call may raise, in which case no object is produced. -/
def init (title description : Option String) (kw : EmbedKwargs) (clock : DT) :
    Except Err EmbedState :=
  let st : EmbedState :=
    { title := title, description := description, url := kw.url,
      footer := kw.footer, image := kw.image, thumbnail := kw.thumbnail,
      video := kw.video, provider := kw.provider, author := kw.author,
      fields := kw.fields, color := Option.none, timestamp := Option.none }
  match set_color kw.color st with
  | (some e, _) => .error e
  | (Option.none, st1) =>
    match set_timestamp kw.timestamp clock st1 with
    | (some e, _) => .error e
    | (Option.none, st2) => .ok st2

end DiscordEmbed

/-! ### `DiscordComponents`, `DiscordPoll`, `DiscordAllowedMentions` -/

/-- The attribute state of a `DiscordComponents` object (a flat list of
row/button/select-menu dicts; only `get_components` is read by `execute`). -/
structure ComponentsState where
  components : List Dict := []
deriving Repr

/-- `DiscordComponents.get_components`: returns `self.components`. -/
def DiscordComponents.get_components (c : ComponentsState) : List Dict :=
  c.components

/-- The attribute state of a `DiscordPoll` object. -/
structure PollState where
  question : String
  options : List String
deriving Repr, DecidableEq

/-- `DiscordPoll.to_dict`: `{"question": ..., "options": ...}` verbatim. -/
def DiscordPoll.to_dict (p : PollState) : Dict :=
  [("question", PyVal.str p.question),
   ("options", PyVal.list (p.options.map PyVal.str))]

/-- The attribute state of a `DiscordAllowedMentions` object
(`replied_user` is accepted by `__init__` but never stored). -/
structure AMState where
  parse : Option (List String) := Option.none
  users : Option (List String) := Option.none
  roles : Option (List String) := Option.none
deriving Repr, DecidableEq

/-- Python truthiness of an `Optional[List]`: `None` and `[]` are falsy. -/
def optListTruthy {α : Type} : Option (List α) → Bool
  | some (_ :: _) => true
  | _ => false

/-- `DiscordAllowedMentions.to_dict`: each key is added only when the stored
attribute is truthy; `users` and `roles` emit the slice `[100:]`. -/
def DiscordAllowedMentions.to_dict (am : AMState) : Dict :=
  (if optListTruthy am.parse then
    [("parse", PyVal.list (((am.parse.getD []).map PyVal.str)))] else []) ++
  (if optListTruthy am.users then
    [("users", PyVal.list ((((am.users.getD []).drop 100).map PyVal.str)))] else []) ++
  (if optListTruthy am.roles then
    [("roles", PyVal.list ((((am.roles.getD []).drop 100).map PyVal.str)))] else [])

/-! ### `DiscordWebhook` (src/utils/webhook.py)

`execute` builds the payload dict and hands it to the HTTP transport
(out of scope per §1/§6); the model returns the assembled payload, or the
error of the first raising validation (`Except` carries no payload on
error, matching an exception propagating out of `execute`). -/

/-- `isinstance(v, str)` on a looked-up dict value. -/
def isStrVal : Option PyVal → Bool
  | some (.str _) => true
  | _ => false

/-- `isinstance(v, bool)` on a looked-up dict value. -/
def isBoolVal : Option PyVal → Bool
  | some (.bool _) => true
  | _ => false

namespace DiscordWebhook

/-- `DiscordWebhook.validate_embed_fields`: walks the fields in order; for
each field, checks key presence, then the `str` types of `name`/`value`,
then `inline`'s type, raising at the first violation. -/
def validate_embed_fields : List Dict → Except Err Unit
  | [] => .ok ()
  | field :: rest =>
    if (dictLookup field "name").isNone || (dictLookup field "value").isNone then
      .error .invalidField
    else if !isStrVal (dictLookup field "name") ||
            !isStrVal (dictLookup field "value") then
      .error .invalidFieldType
    else if (dictLookup field "inline").isSome &&
            !isBoolVal (dictLookup field "inline") then
      .error .invalidFieldType
    else validate_embed_fields rest

/-- Specification-side restatement of the per-field checks (§4.7 step 2 of
the spec), for comparison with `validate_embed_fields`: the outcome of
validating one field in isolation, `none` when the field is acceptable. -/
def fieldErrorSpec (field : Dict) : Option Err :=
  if (dictLookup field "name").isNone || (dictLookup field "value").isNone then
    some .invalidField
  else if !isStrVal (dictLookup field "name") ||
          !isStrVal (dictLookup field "value") then
    some .invalidFieldType
  else if (dictLookup field "inline").isSome &&
          !isBoolVal (dictLookup field "inline") then
    some .invalidFieldType
  else Option.none

/-- Reads a `PyVal` back as a list of field dicts (exact on `to_dict`
output, whose `"fields"` value is a list of dicts by construction). -/
def pyFieldList : PyVal → List Dict
  | .list xs =>
    xs.filterMap (fun v => match v with | .dict dd => some dd | _ => Option.none)
  | _ => []

/-- `embed_dict.get('fields', [])`. -/
def dictGetFields (d : Dict) : List Dict :=
  match dictLookup d "fields" with
  | some v => pyFieldList v
  | Option.none => []

/-- `DiscordWebhook._embed_to_dict`: serializes the embed, validates the
serialized field list, and returns the dict. -/
def embed_to_dict (e : EmbedState) : Except Err Dict :=
  let embed_dict := DiscordEmbed.to_dict e
  match validate_embed_fields (dictGetFields embed_dict) with
  | .error err => .error err
  | .ok _ => .ok embed_dict

/-- Python truthiness of an `Optional[str]`: `None` and `""` are falsy. -/
def strTruthy : Option String → Bool
  | some s => !s.isEmpty
  | Option.none => false

/-- The payload dict literal of `execute` (keys in insertion order), plus
the two conditional `username` / `avatar_url` insertions. -/
def buildPayload (content : Option String) (embed_dicts : List Dict)
    (component_data : List Dict) (poll_data : Dict)
    (username avatar_url : Option String) (tts : Option Bool) : Dict :=
  [("content", match content with | some s => PyVal.str s | Option.none => PyVal.none),
   ("embeds", PyVal.list (embed_dicts.map PyVal.dict)),
   ("components", PyVal.list (component_data.map PyVal.dict)),
   ("poll", PyVal.dict poll_data),
   ("tts", match tts with | some b => PyVal.bool b | Option.none => PyVal.none)]
  ++ (match username with
      | some s => if s.isEmpty then [] else [("username", PyVal.str s)]
      | Option.none => [])
  ++ (match avatar_url with
      | some s => if s.isEmpty then [] else [("avatar_url", PyVal.str s)]
      | Option.none => [])

/-- Python truthiness of a list. -/
def listTruthy {α : Type} : List α → Bool
  | [] => false
  | _ :: _ => true

/-- The list comprehension `[self._embed_to_dict(embed) for embed in embeds]`:
serializes left to right, propagating the first exception. -/
def embedsToDicts : List EmbedState → Except Err (List Dict)
  | [] => .ok []
  | e :: rest =>
    match embed_to_dict e with
    | .error err => .error err
    | .ok d =>
      match embedsToDicts rest with
      | .error err => .error err
      | .ok ds => .ok (d :: ds)

/-- `components.get_components() if components else []` (a
`DiscordComponents` object defines no `__bool__`, so it is always truthy). -/
def componentsData : Option ComponentsState → List Dict
  | some c => DiscordComponents.get_components c
  | Option.none => []

/-- `poll.to_dict() if poll else {}`. -/
def pollData : Option PollState → Dict
  | some p => DiscordPoll.to_dict p
  | Option.none => []

/-- `DiscordWebhook.execute`: truncates a truthy embed list to its first 10
and serializes/validates each; reads components and poll; assembles the
payload (`allowed_mentions` is accepted but never used). -/
def execute (content : Option String) (embeds : Option (List EmbedState))
    (components : Option ComponentsState) (poll : Option PollState)
    (username avatar_url : Option String) (tts : Option Bool)
    (_allowed_mentions : Option AMState) : Except Err Dict :=
  let embedDictsE : Except Err (List Dict) :=
    match embeds with
    | some es =>
      if listTruthy es then embedsToDicts (es.take 10) else .ok []
    | Option.none => .ok []
  match embedDictsE with
  | .error e => .error e
  | .ok embed_dicts =>
    .ok (buildPayload content embed_dicts (componentsData components)
          (pollData poll) username avatar_url tts)

/-! #### State-threaded trace of `execute`

To settle the frame claim (no builder passed to `execute` is mutated), the
same control flow is traced with every builder state threaded through the
operations `execute` performs on it.  Each operation returns the state the
source leaves behind: `to_dict`, `validate_embed_fields`, `get_components`
and `DiscordPoll.to_dict` contain no assignment to the object, and
`allowed_mentions` is never touched at all. -/

/-- `_embed_to_dict` with the embed state threaded (no statement in
`to_dict` or `validate_embed_fields` writes to the embed). -/
def embed_to_dictT (e : EmbedState) : (Except Err Dict) × EmbedState :=
  let embed_dict := DiscordEmbed.to_dict e
  match validate_embed_fields (dictGetFields embed_dict) with
  | .error err => (.error err, e)
  | .ok _ => (.ok embed_dict, e)

/-- The list comprehension `[self._embed_to_dict(embed) for embed in embeds]`
with states threaded; a raise stops the walk, leaving the rest unvisited. -/
def embedsMapT : List EmbedState → (Except Err (List Dict)) × List EmbedState
  | [] => (.ok [], [])
  | e :: rest =>
    match embed_to_dictT e with
    | (.error err, e') => (.error err, e' :: rest)
    | (.ok d, e') =>
      match embedsMapT rest with
      | (.error err, rest') => (.error err, e' :: rest')
      | (.ok ds, rest') => (.ok (d :: ds), e' :: rest')

/-- `get_components` with the state threaded (the method only reads). -/
def get_componentsT (c : ComponentsState) : List Dict × ComponentsState :=
  (DiscordComponents.get_components c, c)

/-- `DiscordPoll.to_dict` with the state threaded (the method only reads). -/
def poll_to_dictT (p : PollState) : Dict × PollState :=
  (DiscordPoll.to_dict p, p)

/-- `execute` with every supplied builder state threaded through the
operations performed on it; returns the result together with the final
states of the embed list, the components, poll and allowed-mentions
builders.  `embeds[:10]` rebinds a local copy, so only the first ten embed
states are visited and the tail is reattached untouched. -/
def executeT (content : Option String) (embeds : Option (List EmbedState))
    (components : Option ComponentsState) (poll : Option PollState)
    (username avatar_url : Option String) (tts : Option Bool)
    (allowed_mentions : Option AMState) :
    (Except Err Dict) × Option (List EmbedState) × Option ComponentsState ×
      Option PollState × Option AMState :=
  let embedsRes : (Except Err (List Dict)) × Option (List EmbedState) :=
    match embeds with
    | some es =>
      if listTruthy es then
        let (r, es10) := embedsMapT (es.take 10)
        (r, some (es10 ++ es.drop 10))
      else (.ok [], some es)
    | Option.none => (.ok [], Option.none)
  match embedsRes with
  | (.error e, embeds') =>
    (.error e, embeds', components, poll, allowed_mentions)
  | (.ok embed_dicts, embeds') =>
    let compRes : List Dict × Option ComponentsState :=
      match components with
      | some c => ((get_componentsT c).1, some (get_componentsT c).2)
      | Option.none => ([], Option.none)
    let pollRes : Dict × Option PollState :=
      match poll with
      | some p => ((poll_to_dictT p).1, some (poll_to_dictT p).2)
      | Option.none => ([], Option.none)
    (.ok (buildPayload content embed_dicts compRes.1 pollRes.1
           username avatar_url tts),
     embeds', compRes.2, pollRes.2, allowed_mentions)

end DiscordWebhook

/-! ## Supporting lemmas -/

theorem pyFieldList_map_dict (ds : List Dict) :
    DiscordWebhook.pyFieldList (PyVal.list (ds.map PyVal.dict)) = ds := by
  induction ds with
  | nil => rfl
  | cons d rest ih =>
    simp only [DiscordWebhook.pyFieldList, List.map_cons, List.filterMap_cons] at ih ⊢
    exact congrArg (d :: ·) ih

theorem dictLookup_cons_ne (a : String × PyVal) (d : Dict) (k : String)
    (h : (a.1 == k) = false) : dictLookup (a :: d) k = dictLookup d k := by
  unfold dictLookup
  rw [List.find?_cons_of_neg _ (by simp [h])]

theorem dictLookup_filterNone_last (l : List (String × Option PyVal)) (k : String)
    (v : PyVal) (hk : ∀ s ∈ l.map Prod.fst, s ≠ k) :
    dictLookup (DiscordEmbed.filterNone (l ++ [(k, some v)])) k = some v := by
  induction l with
  | nil => simp [DiscordEmbed.filterNone, dictLookup]
  | cons p rest ih =>
    have hp : (p.1 == k) = false := by
      simpa using hk p.1 (by simp)
    have hrest : ∀ s ∈ rest.map Prod.fst, s ≠ k := fun s hs => hk s (by simp [hs])
    cases hpv : p.2 with
    | none =>
      simpa [DiscordEmbed.filterNone, List.filterMap_cons, hpv] using ih hrest
    | some w =>
      have hcons : DiscordEmbed.filterNone ((p :: rest) ++ [(k, some v)]) =
          (p.1, w) :: DiscordEmbed.filterNone (rest ++ [(k, some v)]) := by
        simp [DiscordEmbed.filterNone, List.filterMap_cons, hpv]
      rw [hcons, dictLookup_cons_ne _ _ _ hp]
      exact ih hrest

theorem to_dict_getFields (st : EmbedState) :
    DiscordWebhook.dictGetFields (DiscordEmbed.to_dict st) = st.fields := by
  unfold DiscordWebhook.dictGetFields
  rw [show DiscordEmbed.to_dict st = DiscordEmbed.filterNone
      ([("title", st.title.map PyVal.str), ("description", st.description.map PyVal.str),
        ("url", st.url.map PyVal.str), ("timestamp", st.timestamp.map PyVal.str),
        ("color", st.color.map PyVal.int), ("footer", st.footer), ("image", st.image),
        ("thumbnail", st.thumbnail), ("video", st.video), ("provider", st.provider),
        ("author", st.author)] ++
        [("fields", some (PyVal.list (st.fields.map PyVal.dict)))]) from rfl]
  rw [dictLookup_filterNone_last _ _ _ (by
    show ∀ s ∈ (["title", "description", "url", "timestamp", "color", "footer",
      "image", "thumbnail", "video", "provider", "author"] : List String), s ≠ "fields"
    decide)]
  exact pyFieldList_map_dict st.fields

theorem embed_to_dict_eq (e : EmbedState) :
    DiscordWebhook.embed_to_dict e =
      match DiscordWebhook.validate_embed_fields e.fields with
      | .error err => .error err
      | .ok _ => .ok (DiscordEmbed.to_dict e) := by
  have h0 : DiscordWebhook.embed_to_dict e =
      (match DiscordWebhook.validate_embed_fields
          (DiscordWebhook.dictGetFields (DiscordEmbed.to_dict e)) with
        | .error err => .error err
        | .ok _ => .ok (DiscordEmbed.to_dict e)) := rfl
  rw [h0, to_dict_getFields]

theorem embed_to_dict_ok (e : EmbedState) (d : Dict)
    (h : DiscordWebhook.embed_to_dict e = .ok d) : d = DiscordEmbed.to_dict e := by
  rw [embed_to_dict_eq] at h
  cases hv : DiscordWebhook.validate_embed_fields e.fields <;> rw [hv] at h
  · cases h
  · cases h; rfl

theorem embedsToDicts_ok (es : List EmbedState) (ds : List Dict)
    (h : DiscordWebhook.embedsToDicts es = .ok ds) :
    ds = es.map DiscordEmbed.to_dict := by
  induction es generalizing ds with
  | nil =>
    simp only [DiscordWebhook.embedsToDicts] at h
    cases h; rfl
  | cons e rest ih =>
    simp only [DiscordWebhook.embedsToDicts] at h
    cases he : DiscordWebhook.embed_to_dict e <;> rw [he] at h
    · cases h
    case ok d =>
      cases hr : DiscordWebhook.embedsToDicts rest <;> rw [hr] at h
      · cases h
      case ok ds' =>
        cases h
        rw [List.map_cons, ← ih ds' hr, embed_to_dict_ok e d he]

theorem validate_eq_findSome (fields : List Dict) :
    DiscordWebhook.validate_embed_fields fields =
      match List.findSome? DiscordWebhook.fieldErrorSpec fields with
      | some e => .error e
      | Option.none => .ok () := by
  induction fields with
  | nil => rfl
  | cons f rest ih =>
    rw [DiscordWebhook.validate_embed_fields, List.findSome?_cons]
    cases h1 : ((dictLookup f "name").isNone || (dictLookup f "value").isNone) with
    | true => simp [DiscordWebhook.fieldErrorSpec, h1]
    | false =>
      cases h2 : (!isStrVal (dictLookup f "name") ||
          !isStrVal (dictLookup f "value")) with
      | true => simp [DiscordWebhook.fieldErrorSpec, h1, h2]
      | false =>
        cases h3 : ((dictLookup f "inline").isSome &&
            !isBoolVal (dictLookup f "inline")) with
        | true => simp [DiscordWebhook.fieldErrorSpec, h1, h2, h3]
        | false => simp [DiscordWebhook.fieldErrorSpec, h1, h2, h3, ih]

theorem embedsToDicts_of_valid (es : List EmbedState)
    (h : ∀ e ∈ es, DiscordWebhook.validate_embed_fields e.fields = .ok ()) :
    DiscordWebhook.embedsToDicts es = .ok (es.map DiscordEmbed.to_dict) := by
  induction es with
  | nil => rfl
  | cons e rest ih =>
    have he := h e (by simp)
    have hr := ih (fun e' he' => h e' (by simp [he']))
    rw [DiscordWebhook.embedsToDicts, embed_to_dict_eq, he, hr]
    rfl

theorem execute_ok_eq (content : Option String) (embeds : Option (List EmbedState))
    (components : Option ComponentsState) (poll : Option PollState)
    (u a : Option String) (t : Option Bool) (am : Option AMState) (p : Dict)
    (h : DiscordWebhook.execute content embeds components poll u a t am = .ok p) :
    p = DiscordWebhook.buildPayload content
        (((embeds.getD []).take 10).map DiscordEmbed.to_dict)
        (DiscordWebhook.componentsData components) (DiscordWebhook.pollData poll)
        u a t := by
  cases embeds with
  | none => exact (Except.ok.inj h).symm
  | some es =>
    cases es with
    | nil => exact (Except.ok.inj h).symm
    | cons e rest =>
      have h' : (match DiscordWebhook.embedsToDicts ((e :: rest).take 10) with
          | .error err => (.error err : Except Err Dict)
          | .ok eds => .ok (DiscordWebhook.buildPayload content eds
              (DiscordWebhook.componentsData components)
              (DiscordWebhook.pollData poll) u a t)) = .ok p := h
      cases hE : DiscordWebhook.embedsToDicts ((e :: rest).take 10) with
      | error err => rw [hE] at h'; cases h'
      | ok ds =>
        rw [hE] at h'
        rw [← Except.ok.inj h', embedsToDicts_ok _ _ hE]
        rfl

theorem embed_to_dictT_state (e : EmbedState) :
    (DiscordWebhook.embed_to_dictT e).2 = e := by
  simp only [DiscordWebhook.embed_to_dictT]
  split <;> rfl

theorem embedsMapT_state : ∀ es : List EmbedState,
    (DiscordWebhook.embedsMapT es).2 = es
  | [] => rfl
  | e :: rest => by
    rcases hE : DiscordWebhook.embed_to_dictT e with ⟨r, e'⟩
    have he' : e' = e := by rw [← embed_to_dictT_state e, hE]
    cases r with
    | error err => simp [DiscordWebhook.embedsMapT, hE, he']
    | ok d =>
      rcases hM : DiscordWebhook.embedsMapT rest with ⟨rr, rest'⟩
      have hrest : rest' = rest := by rw [← embedsMapT_state rest, hM]
      cases rr <;> simp [DiscordWebhook.embedsMapT, hE, hM, he', hrest]

theorem hexDigitVal_hexDigitChar (n : Nat) (h : n < 16) :
    hexDigitVal (hexDigitChar n) = some n := by
  interval_cases n <;> rfl

theorem parseHexDigits_append (xs ys : List Char) (acc : Nat) :
    parseHexDigits (xs ++ ys) acc =
      match parseHexDigits xs acc with
      | some m => parseHexDigits ys m
      | Option.none => Option.none := by
  induction xs generalizing acc with
  | nil => rfl
  | cons c cs ih =>
    show parseHexDigits (c :: (cs ++ ys)) acc = _
    rw [parseHexDigits, parseHexDigits]
    cases h : hexDigitVal c with
    | none => rfl
    | some d => exact ih (16 * acc + d)

theorem parseHexDigits_natToHexDigits (n : Nat) : ∀ acc : Nat,
    parseHexDigits (natToHexDigits n) acc =
      some (acc * 16 ^ (natToHexDigits n).length + n) := by
  induction n using Nat.strong_induction_on with
  | _ n ih =>
    intro acc
    by_cases h : n < 16
    · rw [natToHexDigits, dif_pos h]
      have h1 : parseHexDigits [hexDigitChar n] acc =
          match hexDigitVal (hexDigitChar n) with
          | some d => some (16 * acc + d)
          | Option.none => Option.none := rfl
      rw [h1, hexDigitVal_hexDigitChar n h]
      show some (16 * acc + n) = some (acc * 16 ^ 1 + n)
      congr 1
      ring
    · rw [natToHexDigits, dif_neg h, parseHexDigits_append,
        ih (n / 16) (Nat.div_lt_self (by omega) (by omega)) acc]
      have h1 : ∀ m : Nat, parseHexDigits [hexDigitChar (n % 16)] m =
          match hexDigitVal (hexDigitChar (n % 16)) with
          | some d => some (16 * m + d)
          | Option.none => Option.none := fun m => rfl
      show parseHexDigits [hexDigitChar (n % 16)]
          (acc * 16 ^ (natToHexDigits (n / 16)).length + n / 16) = _
      rw [h1, hexDigitVal_hexDigitChar (n % 16) (Nat.mod_lt _ (by omega))]
      have hmod := Nat.div_add_mod n 16
      show some _ = some _
      congr 1
      calc 16 * (acc * 16 ^ (natToHexDigits (n / 16)).length + n / 16) + n % 16
          = acc * (16 ^ (natToHexDigits (n / 16)).length * 16) +
              (16 * (n / 16) + n % 16) := by ring
        _ = acc * 16 ^ ((natToHexDigits (n / 16)).length + 1) + n := by
              rw [← pow_succ, hmod]
        _ = acc * 16 ^ (natToHexDigits (n / 16) ++ [hexDigitChar (n % 16)]).length + n := by
              simp

theorem natToHexDigits_ne_nil (n : Nat) : natToHexDigits n ≠ [] := by
  rw [natToHexDigits]
  split <;> simp

theorem intBase16_pyHex (n : Nat) : intBase16 (pyHex n) = some (n : Int) := by
  have h0 : intBase16 (pyHex n) =
      (if (natToHexDigits n).isEmpty then Option.none
       else parseHexDigits (natToHexDigits n) 0).map (fun m => (m : Int)) := rfl
  have hne : (natToHexDigits n).isEmpty = false := by
    cases hl : natToHexDigits n with
    | nil => exact absurd hl (natToHexDigits_ne_nil n)
    | cons c cs => rfl
  rw [h0, hne, if_neg (by simp), parseHexDigits_natToHexDigits n 0]
  simp

theorem validate_addField_entries (ts : List (String × String × Bool)) :
    DiscordWebhook.validate_embed_fields
      (ts.map (fun t => [("name", PyVal.str t.1), ("value", PyVal.str t.2.1),
        ("inline", PyVal.bool t.2.2)])) = .ok () := by
  induction ts with
  | nil => rfl
  | cons t rest ih =>
    simp only [List.map_cons]
    exact ih

theorem foldl_add_field_fields (ts : List (String × String × Bool)) (st : EmbedState) :
    (ts.foldl (fun s t => DiscordEmbed.add_field t.1 t.2.1 t.2.2 s) st).fields =
      st.fields ++ ts.map (fun t => [("name", PyVal.str t.1), ("value", PyVal.str t.2.1),
        ("inline", PyVal.bool t.2.2)]) := by
  induction ts generalizing st with
  | nil => simp
  | cons t rest ih =>
    simp only [List.foldl_cons, List.map_cons]
    rw [ih]
    simp [DiscordEmbed.add_field]

/-! ## The claims -/

/-- C6: for every integer `c` with `0 ≤ c < 16777216`, color normalization is
a round trip: `convert_color_to_int` on Python's `hex(c)` string yields `c`,
and on the integer `c` itself yields `c`. -/
theorem c6_color_round_trip (c : Nat) (h : c < 16777216) :
    DiscordUtilities.convert_color_to_int (.str (pyHex c)) = .ok (c : Int) ∧
    DiscordUtilities.convert_color_to_int (.int (c : Int)) = .ok (c : Int) := by
  have hrange : 0 ≤ (c : Int) ∧ (c : Int) < 16777216 :=
    ⟨Int.ofNat_nonneg c, by exact_mod_cast h⟩
  constructor
  · have h1 : DiscordUtilities.convert_color_to_int (.str (pyHex c)) =
        (match intBase16 (pyHex c) with
         | Option.none => (Except.error Err.invalidColor : Except Err Int)
         | some v => if 0 ≤ v ∧ v < 16777216 then .ok v else .error .invalidColor) := rfl
    rw [h1, intBase16_pyHex c]
    exact if_pos hrange
  · show (if 0 ≤ (c : Int) ∧ (c : Int) < 16777216 then Except.ok (c : Int)
          else Except.error Err.invalidColor) = Except.ok (c : Int)
    exact if_pos hrange

/-- Witness for C6 at `c = 255`. -/
theorem c6_witness :
    (255 : Nat) < 16777216 ∧
    (DiscordUtilities.convert_color_to_int (.str (pyHex 255)) = .ok (255 : Int) ∧
     DiscordUtilities.convert_color_to_int (.int (255 : Int)) = .ok (255 : Int)) :=
  ⟨by decide, c6_color_round_trip 255 (by decide)⟩

/-- C7: every out-of-range color — an integer outside `[0, 16777216)`, or a
hex string parsing to one — makes `set_color` and `convert_color_to_int`
fail with `InvalidColor`, and the failing `set_color` returns with the embed
state (in particular any previously stored color) unchanged. -/
theorem c7_invalid_color_fail_fast (st : EmbedState) (i : Int)
    (hi : i < 0 ∨ 16777216 ≤ i) :
    (∀ s, intBase16 s = some i →
      DiscordEmbed.set_color (some (.str s)) st = (some Err.invalidColor, st) ∧
      DiscordUtilities.convert_color_to_int (.str s) = .error .invalidColor) ∧
    DiscordEmbed.set_color (some (.int i)) st = (some Err.invalidColor, st) ∧
    DiscordUtilities.convert_color_to_int (.int i) = .error .invalidColor := by
  have hneg : ¬(0 ≤ i ∧ i < 16777216) := by omega
  refine ⟨fun s hs => ⟨?_, ?_⟩, ?_, ?_⟩
  · have h1 : DiscordEmbed.set_color (some (.str s)) st =
        (match intBase16 s with
         | Option.none => (some Err.invalidColor, st)
         | some v => if 0 ≤ v ∧ v < 16777216 then
             (Option.none, { st with color := some v })
           else (some Err.invalidColor, st)) := rfl
    rw [h1, hs]
    exact if_neg hneg
  · have h1 : DiscordUtilities.convert_color_to_int (.str s) =
        (match intBase16 s with
         | Option.none => (Except.error Err.invalidColor : Except Err Int)
         | some v => if 0 ≤ v ∧ v < 16777216 then .ok v else .error .invalidColor) := rfl
    rw [h1, hs]
    exact if_neg hneg
  · show (if 0 ≤ i ∧ i < 16777216 then (Option.none, { st with color := some i })
          else (some Err.invalidColor, st)) = (some Err.invalidColor, st)
    exact if_neg hneg
  · show (if 0 ≤ i ∧ i < 16777216 then Except.ok i
          else Except.error Err.invalidColor) = Except.error Err.invalidColor
    exact if_neg hneg

/-- Witness for C7 at the default embed state, `i = 16777216`,
`s = "1000000"`. -/
theorem c7_witness :
    DiscordEmbed.set_color (some (.str "1000000")) {} = (some Err.invalidColor, {}) ∧
    DiscordEmbed.set_color (some (.int 16777216)) {} = (some Err.invalidColor, {}) ∧
    DiscordUtilities.convert_color_to_int (.int 16777216) = .error .invalidColor :=
  ⟨((c7_invalid_color_fail_fast {} 16777216 (by decide)).1 "1000000" rfl).1,
   (c7_invalid_color_fail_fast {} 16777216 (by decide)).2.1,
   (c7_invalid_color_fail_fast {} 16777216 (by decide)).2.2⟩

/-- C8: `set_timestamp` normalization: an absent input stores the injected
current-UTC clock rendered by `isoformat`; an integer is read as Unix epoch
seconds and stored as `utcfromtimestamp`'s UTC civil time rendered by
`isoformat`; a string is parsed by `fromisoformat`, failing with
`InvalidTimestamp` (state unchanged) when unparseable; so every stored
timestamp is the `isoformat` rendering of a `datetime` (canonical
ISO-8601). -/
theorem c8_timestamp_normalization (st : EmbedState) (clock : DT) :
    DiscordEmbed.set_timestamp Option.none clock st =
      (Option.none, { st with timestamp := some clock.isoformat }) ∧
    (∀ n : Int, DiscordEmbed.set_timestamp (some (.num n)) clock st =
      (Option.none, { st with timestamp := some (utcfromtimestamp n).isoformat })) ∧
    (∀ s : String,
      (fromisoformat s = Option.none →
        DiscordEmbed.set_timestamp (some (.str s)) clock st =
          (some Err.invalidTimestamp, st)) ∧
      (∀ d : DT, fromisoformat s = some d →
        DiscordEmbed.set_timestamp (some (.str s)) clock st =
          (Option.none, { st with timestamp := some d.isoformat }))) := by
  have h1 : ∀ s : String, DiscordEmbed.set_timestamp (some (.str s)) clock st =
      (match fromisoformat s with
       | some d => (Option.none, { st with timestamp := some d.isoformat })
       | Option.none => (some Err.invalidTimestamp, st)) := fun s => rfl
  refine ⟨rfl, fun n => rfl, fun s => ⟨fun hs => ?_, fun d hd => ?_⟩⟩
  · rw [h1 s, hs]
  · rw [h1 s, hd]

/-- Witness for C8 at a concrete clock, epoch second count, an unparseable
string and a parseable offset-carrying string. -/
theorem c8_witness :
    DiscordEmbed.set_timestamp Option.none
        ⟨2024, 1, 2, 3, 4, 5, 0, Option.none⟩ {} =
      (Option.none, { timestamp := some "2024-01-02T03:04:05" }) ∧
    DiscordEmbed.set_timestamp (some (.num 1700000000))
        ⟨2024, 1, 2, 3, 4, 5, 0, Option.none⟩ {} =
      (Option.none, { timestamp := some "2023-11-14T22:13:20" }) ∧
    DiscordEmbed.set_timestamp (some (.str "not-a-date"))
        ⟨2024, 1, 2, 3, 4, 5, 0, Option.none⟩ {} =
      (some Err.invalidTimestamp, {}) ∧
    DiscordEmbed.set_timestamp (some (.str "2024-05-06T07:08:09+02:00"))
        ⟨2024, 1, 2, 3, 4, 5, 0, Option.none⟩ {} =
      (Option.none, { timestamp := some "2024-05-06T07:08:09+02:00" }) :=
  ⟨(c8_timestamp_normalization {} ⟨2024, 1, 2, 3, 4, 5, 0, Option.none⟩).1,
   (c8_timestamp_normalization {} ⟨2024, 1, 2, 3, 4, 5, 0, Option.none⟩).2.1 1700000000,
   ((c8_timestamp_normalization {} ⟨2024, 1, 2, 3, 4, 5, 0, Option.none⟩).2.2
     "not-a-date").1 rfl,
   ((c8_timestamp_normalization {} ⟨2024, 1, 2, 3, 4, 5, 0, Option.none⟩).2.2
     "2024-05-06T07:08:09+02:00").2 ⟨2024, 5, 6, 7, 8, 9, 0, some 120⟩ rfl⟩

/-- C3 counterexample: a freshly constructed embed with only a title set
serializes with a `timestamp` key (auto-set at construction) and a `fields`
key bound to the empty list, so the payload does not contain only the
title. -/
theorem c3_counterexample :
    (DiscordEmbed.init (some "Hi") Option.none {}
        ⟨2024, 1, 2, 3, 4, 5, 0, Option.none⟩).map
      (fun st => dictKeys (DiscordEmbed.to_dict st)) =
      .ok ["title", "timestamp", "fields"] ∧
    (["title", "timestamp", "fields"] : List String) ≠ ["title"] :=
  ⟨rfl, by decide⟩

/-- C3 amended: on an embed constructed with no optional attributes set,
`to_dict` yields exactly the title and/or description (when set) followed by
`timestamp` (always auto-set from the construction-time clock) and `fields`
bound to the empty list; every other key is omitted entirely and no key is
emitted as null or empty string. -/
theorem c3_bare_embed_payload (title description : Option String) (clock : DT) :
    (DiscordEmbed.init title description {} clock).map DiscordEmbed.to_dict =
      .ok ((match title with
            | some t => [("title", PyVal.str t)]
            | Option.none => []) ++
           (match description with
            | some d => [("description", PyVal.str d)]
            | Option.none => []) ++
           [("timestamp", PyVal.str clock.isoformat), ("fields", PyVal.list [])]) := by
  cases title <;> cases description <;> rfl

/-- C4: `DiscordAllowedMentions.to_dict` emits the `parse` key exactly when
the stored parse list is truthy (neither `None` nor empty), and emits
`users`/`roles` exactly when the stored list is truthy, in which case the
value is the slice of entries beyond the first 100 (`users[100:]`,
`roles[100:]`). -/
theorem c4_allowed_mentions_payload (am : AMState) :
    dictLookup (DiscordAllowedMentions.to_dict am) "parse" =
      (if optListTruthy am.parse then
        some (PyVal.list ((am.parse.getD []).map PyVal.str)) else Option.none) ∧
    dictLookup (DiscordAllowedMentions.to_dict am) "users" =
      (if optListTruthy am.users then
        some (PyVal.list (((am.users.getD []).drop 100).map PyVal.str)) else Option.none) ∧
    dictLookup (DiscordAllowedMentions.to_dict am) "roles" =
      (if optListTruthy am.roles then
        some (PyVal.list (((am.roles.getD []).drop 100).map PyVal.str)) else Option.none) := by
  rcases am with ⟨(_|(_|⟨ph, pt⟩)), (_|(_|⟨uh, ut⟩)), (_|(_|⟨rh, rt⟩))⟩ <;>
    exact ⟨rfl, rfl, rfl⟩

/-- C2 counterexample: with a first field whose `name` is an `int` and a
second field lacking a `value` key, `execute` fails with `InvalidFieldType`
(the first field's type check fires first), not the `InvalidField` the claim
requires whenever some field lacks a `name`/`value` key. -/
theorem c2_counterexample :
    DiscordWebhook.execute Option.none
      (some [{ fields := [[("name", PyVal.int 1), ("value", PyVal.str "x")],
                          [("name", PyVal.str "a")]] }])
      Option.none Option.none Option.none Option.none (some false) Option.none =
      .error .invalidFieldType ∧ Err.invalidFieldType ≠ Err.invalidField :=
  ⟨rfl, by decide⟩

/-- C2 amended: fields are validated left to right, with the per-field
checks applied in order (missing `name`/`value` key ⇒ `InvalidField`, then
non-string `name`/`value` ⇒ `InvalidFieldType`, then non-boolean present
`inline` ⇒ `InvalidFieldType`); `validate_embed_fields` returns the error of
the first offending field, `execute` fails with that error, and no payload
is returned in any failing case. -/
theorem c2_field_validation_first_error (fields : List Dict) :
    DiscordWebhook.validate_embed_fields fields =
      (match List.findSome? DiscordWebhook.fieldErrorSpec fields with
       | some e => .error e
       | Option.none => .ok ()) ∧
    ∀ e : Err, List.findSome? DiscordWebhook.fieldErrorSpec fields = some e →
      DiscordWebhook.execute Option.none (some [{ fields := fields }]) Option.none
        Option.none Option.none Option.none (some false) Option.none = .error e := by
  refine ⟨validate_eq_findSome fields, fun e he => ?_⟩
  have hv : DiscordWebhook.validate_embed_fields fields = .error e := by
    rw [validate_eq_findSome fields, he]
  have hst : DiscordWebhook.embed_to_dict { fields := fields } = .error e := by
    rw [embed_to_dict_eq]
    have hF : ({ fields := fields } : EmbedState).fields = fields := rfl
    rw [hF, hv]
  have h1 : DiscordWebhook.execute Option.none (some [{ fields := fields }])
      Option.none Option.none Option.none Option.none (some false) Option.none =
      (match DiscordWebhook.embedsToDicts [{ fields := fields }] with
       | .error err => (.error err : Except Err Dict)
       | .ok eds => .ok (DiscordWebhook.buildPayload Option.none eds [] []
           Option.none Option.none (some false))) := rfl
  rw [h1, DiscordWebhook.embedsToDicts, hst]

/-- Witness for C2's amended claim: a single field missing its `value` key
makes `execute` fail with `InvalidField`. -/
theorem c2_amended_witness :
    DiscordWebhook.execute Option.none
      (some [{ fields := [[("name", PyVal.str "a")]] }])
      Option.none Option.none Option.none Option.none (some false) Option.none =
      .error .invalidField :=
  (c2_field_validation_first_error [[("name", PyVal.str "a")]]).2 .invalidField rfl

/-- C1: whenever `execute` returns a payload for a supplied embed list, the
payload's `embeds` value is exactly the first ten embeds serialized in
order; lists of length at most ten are serialized in full. -/
theorem c1_embeds_truncation (content : Option String) (embeds : List EmbedState)
    (components : Option ComponentsState) (poll : Option PollState)
    (u a : Option String) (t : Option Bool) (am : Option AMState) (p : Dict)
    (h : DiscordWebhook.execute content (some embeds) components poll u a t am =
      .ok p) :
    dictLookup p "embeds" =
      some (PyVal.list ((embeds.take 10).map
        (fun e => PyVal.dict (DiscordEmbed.to_dict e)))) ∧
    (embeds.length ≤ 10 →
      dictLookup p "embeds" =
        some (PyVal.list (embeds.map
          (fun e => PyVal.dict (DiscordEmbed.to_dict e))))) := by
  have hp := execute_ok_eq content (some embeds) components poll u a t am p h
  have hmm : (embeds.take 10).map (fun e => PyVal.dict (DiscordEmbed.to_dict e)) =
      ((embeds.take 10).map DiscordEmbed.to_dict).map PyVal.dict := by
    rw [List.map_map]; rfl
  have hmain : dictLookup p "embeds" =
      some (PyVal.list ((embeds.take 10).map
        (fun e => PyVal.dict (DiscordEmbed.to_dict e)))) := by
    rw [hp, hmm]; rfl
  exact ⟨hmain, fun hlen => by rw [hmain, List.take_of_length_le hlen]⟩

/-- Witness for C1: eleven identical embeds yield a payload whose `embeds`
value holds the first ten. -/
theorem c1_witness :
    dictLookup (DiscordWebhook.buildPayload Option.none
        (((List.replicate 11 ({ title := some "t" } : EmbedState)).take 10).map
          DiscordEmbed.to_dict)
        (DiscordWebhook.componentsData Option.none)
        (DiscordWebhook.pollData Option.none) Option.none Option.none
        (some false)) "embeds" =
      some (PyVal.list (((List.replicate 11 ({ title := some "t" } : EmbedState)).take 10).map
        (fun e => PyVal.dict (DiscordEmbed.to_dict e)))) :=
  (c1_embeds_truncation Option.none
    (List.replicate 11 { title := some "t" })
    Option.none Option.none Option.none Option.none (some false) Option.none _ rfl).1

/-- C5: every payload `execute` assembles carries the keys `content`,
`embeds`, `components`, `poll` and `tts` (content possibly null); `username`
and `avatar_url` appear exactly when their arguments are truthy; and no
`allowed_mentions` key is ever present, whatever the `allowed_mentions`
argument. -/
theorem c5_payload_keys (content : Option String) (embeds : Option (List EmbedState))
    (components : Option ComponentsState) (poll : Option PollState)
    (username avatar_url : Option String) (tts : Option Bool) (am : Option AMState)
    (p : Dict)
    (h : DiscordWebhook.execute content embeds components poll username avatar_url
      tts am = .ok p) :
    (dictLookup p "content").isSome = true ∧
    (dictLookup p "embeds").isSome = true ∧
    (dictLookup p "components").isSome = true ∧
    (dictLookup p "poll").isSome = true ∧
    (dictLookup p "tts").isSome = true ∧
    (dictLookup p "username").isSome = DiscordWebhook.strTruthy username ∧
    (dictLookup p "avatar_url").isSome = DiscordWebhook.strTruthy avatar_url ∧
    dictLookup p "allowed_mentions" = Option.none := by
  have hp := execute_ok_eq content embeds components poll username avatar_url tts
    am p h
  subst hp
  rcases username with _|su <;> rcases avatar_url with _|sa
  · exact ⟨rfl, rfl, rfl, rfl, rfl, rfl, rfl, rfl⟩
  · cases hsa : sa.isEmpty <;>
      simp only [DiscordWebhook.buildPayload, DiscordWebhook.strTruthy, hsa] <;>
      exact ⟨rfl, rfl, rfl, rfl, rfl, rfl, rfl, rfl⟩
  · cases hsu : su.isEmpty <;>
      simp only [DiscordWebhook.buildPayload, DiscordWebhook.strTruthy, hsu] <;>
      exact ⟨rfl, rfl, rfl, rfl, rfl, rfl, rfl, rfl⟩
  · cases hsu : su.isEmpty <;> cases hsa : sa.isEmpty <;>
      simp only [DiscordWebhook.buildPayload, DiscordWebhook.strTruthy, hsu, hsa] <;>
      exact ⟨rfl, rfl, rfl, rfl, rfl, rfl, rfl, rfl⟩

/-- Witness for C5 at an `execute` call with all-default arguments. -/
theorem c5_witness :
    (dictLookup (DiscordWebhook.buildPayload Option.none []
        (DiscordWebhook.componentsData Option.none)
        (DiscordWebhook.pollData Option.none) Option.none Option.none
        (some false)) "content").isSome = true ∧
    (dictLookup (DiscordWebhook.buildPayload Option.none []
        (DiscordWebhook.componentsData Option.none)
        (DiscordWebhook.pollData Option.none) Option.none Option.none
        (some false)) "embeds").isSome = true ∧
    (dictLookup (DiscordWebhook.buildPayload Option.none []
        (DiscordWebhook.componentsData Option.none)
        (DiscordWebhook.pollData Option.none) Option.none Option.none
        (some false)) "components").isSome = true ∧
    (dictLookup (DiscordWebhook.buildPayload Option.none []
        (DiscordWebhook.componentsData Option.none)
        (DiscordWebhook.pollData Option.none) Option.none Option.none
        (some false)) "poll").isSome = true ∧
    (dictLookup (DiscordWebhook.buildPayload Option.none []
        (DiscordWebhook.componentsData Option.none)
        (DiscordWebhook.pollData Option.none) Option.none Option.none
        (some false)) "tts").isSome = true ∧
    (dictLookup (DiscordWebhook.buildPayload Option.none []
        (DiscordWebhook.componentsData Option.none)
        (DiscordWebhook.pollData Option.none) Option.none Option.none
        (some false)) "username").isSome = DiscordWebhook.strTruthy Option.none ∧
    (dictLookup (DiscordWebhook.buildPayload Option.none []
        (DiscordWebhook.componentsData Option.none)
        (DiscordWebhook.pollData Option.none) Option.none Option.none
        (some false)) "avatar_url").isSome = DiscordWebhook.strTruthy Option.none ∧
    dictLookup (DiscordWebhook.buildPayload Option.none []
        (DiscordWebhook.componentsData Option.none)
        (DiscordWebhook.pollData Option.none) Option.none Option.none
        (some false)) "allowed_mentions" = Option.none :=
  c5_payload_keys Option.none Option.none Option.none Option.none Option.none
    Option.none (some false) Option.none _ rfl

/-- C9: `execute` never mutates the builders passed to it: the state-threaded
trace of `execute` returns every supplied embed state, the components
builder, the poll builder and the allowed-mentions builder exactly as they
were passed in, whether the call succeeds or fails validation. -/
theorem c9_execute_borrows_builders (content : Option String)
    (embeds : Option (List EmbedState)) (components : Option ComponentsState)
    (poll : Option PollState) (username avatar_url : Option String)
    (tts : Option Bool) (am : Option AMState) :
    (DiscordWebhook.executeT content embeds components poll username avatar_url
      tts am).2 = (embeds, components, poll, am) := by
  cases embeds with
  | none =>
    cases components <;> cases poll <;> rfl
  | some es =>
    cases es with
    | nil => cases components <;> cases poll <;> rfl
    | cons e rest =>
      rcases hM : DiscordWebhook.embedsMapT ((e :: rest).take 10) with ⟨r, es10⟩
      have h10 : es10 = (e :: rest).take 10 := by
        rw [← embedsMapT_state ((e :: rest).take 10), hM]
      simp only [DiscordWebhook.executeT, DiscordWebhook.listTruthy, hM]
      cases r with
      | error err =>
        simp [h10, List.take_append_drop]
      | ok ds =>
        cases components <;> cases poll <;> simp [h10, List.take_append_drop,
          DiscordWebhook.get_componentsT, DiscordWebhook.poll_to_dictT]

/-- C10: an embed whose field list was populated exclusively through
`add_field` calls (string name and value, boolean inline) always passes
`validate_embed_fields`, and `execute` succeeds on it — it can never fail
with `InvalidField` or `InvalidFieldType` on such an embed. -/
theorem c10_add_field_embeds_always_valid (ts : List (String × String × Bool))
    (st0 : EmbedState) (h : st0.fields = []) :
    DiscordWebhook.validate_embed_fields
      ((ts.foldl (fun s t => DiscordEmbed.add_field t.1 t.2.1 t.2.2 s) st0).fields) =
      .ok () ∧
    (DiscordWebhook.execute Option.none
        (some [ts.foldl (fun s t => DiscordEmbed.add_field t.1 t.2.1 t.2.2 s) st0])
        Option.none Option.none Option.none Option.none (some false)
        Option.none).isOk = true := by
  have hf : (ts.foldl (fun s t => DiscordEmbed.add_field t.1 t.2.1 t.2.2 s) st0).fields =
      ts.map (fun t => [("name", PyVal.str t.1), ("value", PyVal.str t.2.1),
        ("inline", PyVal.bool t.2.2)]) := by
    rw [foldl_add_field_fields, h]
    rfl
  have hv : DiscordWebhook.validate_embed_fields
      ((ts.foldl (fun s t => DiscordEmbed.add_field t.1 t.2.1 t.2.2 s) st0).fields) =
      .ok () := by
    rw [hf]
    exact validate_addField_entries ts
  refine ⟨hv, ?_⟩
  have hd := embedsToDicts_of_valid
    [ts.foldl (fun s t => DiscordEmbed.add_field t.1 t.2.1 t.2.2 s) st0]
    (by intro e he; simp only [List.mem_singleton] at he; rw [he]; exact hv)
  have h1 : DiscordWebhook.execute Option.none
      (some [ts.foldl (fun s t => DiscordEmbed.add_field t.1 t.2.1 t.2.2 s) st0])
      Option.none Option.none Option.none Option.none (some false) Option.none =
      (match DiscordWebhook.embedsToDicts
          [ts.foldl (fun s t => DiscordEmbed.add_field t.1 t.2.1 t.2.2 s) st0] with
       | .error err => (.error err : Except Err Dict)
       | .ok eds => .ok (DiscordWebhook.buildPayload Option.none eds [] []
           Option.none Option.none (some false))) := rfl
  rw [h1, hd]
  rfl

/-- Witness for C10 at one `add_field("a", "b", inline=True)` call on a fresh
embed. -/
theorem c10_witness :
    DiscordWebhook.validate_embed_fields
      ((([("a", "b", true)] : List (String × String × Bool)).foldl
        (fun s t => DiscordEmbed.add_field t.1 t.2.1 t.2.2 s) ({} : EmbedState)).fields) =
      .ok () ∧
    (DiscordWebhook.execute Option.none
        (some [([("a", "b", true)] : List (String × String × Bool)).foldl
          (fun s t => DiscordEmbed.add_field t.1 t.2.1 t.2.2 s) ({} : EmbedState)])
        Option.none Option.none Option.none Option.none (some false)
        Option.none).isOk = true :=
  c10_add_field_embeds_always_valid [("a", "b", true)] {} rfl

end Dishook
